import Mathlib

/-!
Verification of the wxReader viewport rendering engine (`src/wxReaderView.py`,
`src/wxReaderGlUtil.py`) against its natural-language specification.

The engine state (`PDFView`) is embedded as an explicit record `ViewSt`;
page indices are `ℤ` (the blank slot is the sentinel `-1`, as in the code),
zoom factors are `ℚ` (the code's floats `0.2`, `6.0`, `1e-9` become the exact
rationals `1/5`, `6`, `1/10^9`), and rendered bitmaps are abstracted by the
provenance tag (zoom, enhance mode, color mode) under which they were
rasterized and processed, which is all the cache-freshness claims speak about.
-/

namespace WxReader

/-- `PDFView.MODE_SINGLE` / `MODE_TWO`. -/
inductive DispMode
  | single
  | two
deriving DecidableEq, Repr

/-- `PDFView.DIR_LTR` / `DIR_RTL`. -/
inductive ReadDir
  | ltr
  | rtl
deriving DecidableEq, Repr

/-- `PDFView.ZOOM_MANUAL` / `ZOOM_FIT_WIDTH` / `ZOOM_FIT_PAGE`. -/
inductive ZoomMode
  | manual
  | fitWidth
  | fitPage
deriving DecidableEq, Repr

/-- `PDFView.ENH_NONE` / `ENH_SHARPEN` / `ENH_SOFTEN` / `ENH_SOFTEN_SHARPEN`. -/
inductive EnhMode
  | enhNone
  | sharpen
  | soften
  | softenSharpen
deriving DecidableEq, Repr

/-- `PDFView.COL_NONE` / `COL_INVERT` / `COL_GREEN` / `COL_BROWN`. -/
inductive ColMode
  | colNone
  | invert
  | green
  | brown
deriving DecidableEq, Repr

/-- Provenance tag of a cached bitmap: the zoom, enhancement selection and
color selection current when `_get_bitmap` rendered and processed it. -/
structure BmpTag where
  zoom : ℚ
  enh : EnhMode
  col : ColMode
deriving DecidableEq, Repr

/-- The mutable state of `PDFView`: `pdf` holds the open document's page
count (`None` when no document), and `cache` is the association list
embedding of the `_bmp_cache` dict (keys are page indices, `-1` = blank). -/
structure ViewSt where
  pdf : Option ℤ
  page : ℤ
  zoom : ℚ
  zoomMode : ZoomMode
  mode : DispMode
  direction : ReadDir
  padStart : Bool
  enhanceMode : EnhMode
  colorMode : ColMode
  lastCacheZoom : ℚ
  cache : List (ℤ × BmpTag)
deriving DecidableEq, Repr

/-- The `1e-9` tolerance used by `_ensure_cache_zoom` and the zoom setters. -/
def eps : ℚ := 1 / 1000000000

/-- Dict membership / lookup on the association-list cache. -/
def cacheLookup (c : List (ℤ × BmpTag)) (k : ℤ) : Option BmpTag :=
  (c.find? (fun e => e.1 == k)).map (·.2)

/-- `PDFView._spread_pages`, with the document's page count, current page and
mode switches passed explicitly (lines 282-319).  Slots are page indices;
`-1` is the blank slot. -/
def spreadCore (n page : ℤ) (mode : DispMode) (dir : ReadDir) (pad : Bool) : List ℤ :=
  let p := max 0 (min page (n - 1))
  if mode = DispMode.single then [p]
  else
    let shift : ℤ := if pad then 1 else 0
    let v := p + shift
    let vbase := if v % 2 = 0 then v else v - 1
    let leftIdx := vbase - shift
    let rightIdx := vbase + 1 - shift
    if dir = ReadDir.ltr then
      (if 0 ≤ leftIdx ∧ leftIdx < n then [leftIdx]
       else if leftIdx = -1 ∧ pad then [-1] else []) ++
      (if 0 ≤ rightIdx ∧ rightIdx < n then [rightIdx] else [])
    else
      (if 0 ≤ rightIdx ∧ rightIdx < n then [rightIdx] else []) ++
      (if 0 ≤ leftIdx ∧ leftIdx < n then [leftIdx]
       else if leftIdx = -1 ∧ pad then [-1] else [])

/-- `PDFView._spread_pages` on the engine state (returns `[]` with no
document, as the code does). -/
def spreadPages (s : ViewSt) : List ℤ :=
  match s.pdf with
  | Option.none => []
  | Option.some n => spreadCore n s.page s.mode s.direction s.padStart

/-- `PDFView._ensure_cache_zoom` (lines 232-235): clear the whole cache and
restamp it whenever the stored zoom drifted from the stamp by more than
`1e-9`. -/
def ensureCacheZoom (s : ViewSt) : ViewSt :=
  if |s.zoom - s.lastCacheZoom| > eps then
    { s with cache := [], lastCacheZoom := s.zoom }
  else s

/-- `PDFView._prune_cache` (lines 237-250): with a document open, delete every
cache key whose distance from the current page exceeds `keep_range = 10`. -/
def pruneCache (s : ViewSt) : ViewSt :=
  match s.pdf with
  | Option.none => s
  | Option.some _ => { s with cache := s.cache.filter (fun e => |e.1 - s.page| ≤ 10) }

/-- Provenance of a bitmap rendered and processed in state `s`: both the
blank branch and the page branch of `_get_bitmap` rasterize at `s.zoom` and
run `_apply_processing` under the current mode pair. -/
def mkTag (s : ViewSt) : BmpTag :=
  { zoom := s.zoom, enh := s.enhanceMode, col := s.colorMode }

/-- The tail of `_get_bitmap`'s miss path (lines 261-280): render the slot
(blank or page) at the current zoom, process it under the current mode pair,
store it under key `k` and return it. -/
def insertBitmap (s2 : ViewSt) (k : ℤ) : ViewSt × BmpTag :=
  ({ s2 with cache := (k, mkTag s2) :: s2.cache }, mkTag s2)

/-- `PDFView._get_bitmap` (lines 252-280): ensure the cache zoom, serve a
hit, otherwise prune when over 36 entries, render+process the slot and
insert it.  Returns the updated state and the served bitmap's tag. -/
def getBitmap (s : ViewSt) (k : ℤ) : ViewSt × BmpTag :=
  match cacheLookup (ensureCacheZoom s).cache k with
  | Option.some t => (ensureCacheZoom s, t)
  | Option.none =>
    insertBitmap
      (if (ensureCacheZoom s).cache.length > 36 then pruneCache (ensureCacheZoom s)
       else ensureCacheZoom s) k

/-- `PDFView.set_document` (lines 138-145, the state resets before
`_refresh_layout` repopulates the display): clears the cache and resets
page, zoom, zoom mode and the cache-zoom stamp. -/
def setDocument (s : ViewSt) (pdf : Option ℤ) : ViewSt :=
  { s with cache := [], pdf := pdf, page := 0, zoom := 1,
           zoomMode := ZoomMode.fitPage, lastCacheZoom := 1 }

/-- `PDFView.set_enhance_mode` (lines 156-163); in the typed embedding every
`EnhMode` value is one of the four valid strings, so only the
changed-selection guard remains. -/
def setEnhanceMode (s : ViewSt) (m : EnhMode) : ViewSt :=
  if s.enhanceMode ≠ m then { s with enhanceMode := m, cache := [] } else s

/-- `PDFView.set_color_mode` (lines 165-172). -/
def setColorMode (s : ViewSt) (m : ColMode) : ViewSt :=
  if s.colorMode ≠ m then { s with colorMode := m, cache := [] } else s

/-- `PDFView.set_pad_start` (lines 174-179). -/
def setPadStart (s : ViewSt) (pad : Bool) : ViewSt :=
  if s.padStart ≠ pad then { s with padStart := pad, cache := [] } else s

/-- The raw zoom-field write performed by the zoom-changing paths
(`on_mousewheel` line 620, `_apply_auto_zoom_if_needed` line 377) before the
cache is consulted again. -/
def setZoomValue (s : ViewSt) (z : ℚ) : ViewSt :=
  { s with zoom := z }

/-- `PDFDocument.get_page_size` clamps its index into `[0, n-1]` before
asking the document; `osize` stands for the per-page size oracle
(points). -/
def pageSizeClamped (n : ℤ) (osize : ℤ → ℚ × ℚ) (i : ℤ) : ℚ × ℚ :=
  osize (max 0 (min i (n - 1)))

/-- `PDFView._page_size_points` (lines 321-325): the blank slot takes the
size of the current reference page. -/
def pagePoints (n : ℤ) (osize : ℤ → ℚ × ℚ) (page i : ℤ) : ℚ × ℚ :=
  if i < 0 then pageSizeClamped n osize (max 0 (min page (n - 1)))
  else pageSizeClamped n osize i

/-- `PDFView._compute_auto_zoom` (lines 327-367) with the attributes it reads
passed explicitly (`margin = 6`, `gap = 6` as in `__init__`). -/
def computeAutoZoom (osize : ℤ → ℚ × ℚ) (cw ch : ℤ) (pdf : Option ℤ) (page : ℤ)
    (mode : DispMode) (dir : ReadDir) (pad : Bool) (zm : ZoomMode) : Option ℚ :=
  match pdf with
  | Option.none => Option.none
  | Option.some n =>
    if cw ≤ 0 ∨ ch ≤ 0 then Option.none
    else
      let pages := spreadCore n page mode dir pad
      if pages = [] then Option.none
      else
        let availW : ℚ := ((max 1 (cw - 12) : ℤ) : ℚ)
        let availH : ℚ := ((max 1 (ch - 12) : ℤ) : ℚ)
        let sizes := pages.map (pagePoints n osize page)
        match sizes with
        | [(pw, ph)] =>
          if zm = ZoomMode.fitWidth then Option.some (availW / pw)
          else if zm = ZoomMode.fitPage then
            Option.some (min (availW / pw) (availH / ph))
          else Option.none
        | [(w0, h0), (w1, h1)] =>
          let sumW := w0 + w1
          let maxH := max h0 h1
          if zm = ZoomMode.fitWidth then
            Option.some (max (1 / 100) ((availW - 6) / sumW))
          else if zm = ZoomMode.fitPage then
            Option.some (min (max (1 / 100) ((availW - 6) / sumW)) (availH / maxH))
          else Option.none
        | _ => Option.none

/-- `PDFView._apply_auto_zoom_if_needed` (lines 369-378): skip in manual
mode, clamp the computed value to `[0.2, 6.0]`, update the stored zoom and
re-ensure the cache only when it moved by more than `1e-9`. -/
def applyAutoZoomIfNeeded (osize : ℤ → ℚ × ℚ) (cw ch : ℤ) (s : ViewSt) : ViewSt :=
  if s.zoomMode = ZoomMode.manual then s
  else
    match computeAutoZoom osize cw ch s.pdf s.page s.mode s.direction s.padStart s.zoomMode with
    | Option.none => s
    | Option.some z0 =>
      if |max (1 / 5) (min z0 6) - s.zoom| > eps then
        ensureCacheZoom { s with zoom := max (1 / 5) (min z0 6) }
      else s

/-- The page window `[anchor-2, anchor+4) ∩ [0, n)` prefetched by
`_on_pre_render_timer` (lines 503-505). -/
def prefetchWindow (anchor n : ℤ) : List ℤ :=
  ((List.range 6).map (fun j => anchor - 2 + Int.ofNat j)).filter
    (fun i => 0 ≤ i ∧ i < n)

/-- One iteration of the prefetch loop (lines 507-513): re-ensure the cache
zoom, then fill the slot on a miss. -/
def prefetchStep (s : ViewSt) (i : ℤ) : ViewSt :=
  if (cacheLookup (ensureCacheZoom s).cache i).isSome then ensureCacheZoom s
  else (getBitmap (ensureCacheZoom s) i).1

/-- `PDFView._on_pre_render_timer` (lines 492-513): bail out with no document
or empty spread, then fill the neighborhood window. -/
def onPreRenderTimer (s : ViewSt) : ViewSt :=
  match s.pdf with
  | Option.none => s
  | Option.some n =>
    if spreadPages s = [] then s
    else (prefetchWindow s.page n).foldl prefetchStep s

/-- The spread formula exactly as the specification words it (§4.1): `shift =
padStart ? 1 : 0`, `v = page + shift`, `base = v - (v mod 2)`, `left = base -
shift`, `right = base + 1 - shift`, in-range slots kept in reading order, an
out-of-range slot dropped unless it is `-1` with `padStart` set (then Blank). -/
def spreadSpecFormula (n page : ℤ) (dir : ReadDir) (pad : Bool) : List ℤ :=
  let p := max 0 (min page (n - 1))
  let shift : ℤ := if pad then 1 else 0
  let v := p + shift
  let base := v - v % 2
  let leftIdx := base - shift
  let rightIdx := base + 1 - shift
  let slotL : List ℤ :=
    if 0 ≤ leftIdx ∧ leftIdx < n then [leftIdx]
    else if leftIdx = -1 ∧ pad then [-1] else []
  let slotR : List ℤ := if 0 ≤ rightIdx ∧ rightIdx < n then [rightIdx] else []
  if dir = ReadDir.ltr then slotL ++ slotR else slotR ++ slotL

/-- Edge-replicated padding of an `h × w` raster (channel `c`), as produced
by `np.pad(a, ((r,r),(r,r),(0,0)), mode="edge")`: padded coordinate `x`
reads source row `clamp(x - r, 0, h-1)` (truncated `ℕ` subtraction gives the
lower clamp). -/
def padAt (h w r : ℕ) (a : ℕ → ℕ → ℕ → ℕ) (x y c : ℕ) : ℕ :=
  a (min (h - 1) (x - r)) (min (w - 1) (y - r)) c

/-- The zero-padded summed-area table of the padded raster: `integ i j c` is
the sum of `pad` over rows `< i` and columns `< j` (the code's double
`cumsum` followed by a leading zero row/column). -/
def integ (h w r : ℕ) (a : ℕ → ℕ → ℕ → ℕ) (i j c : ℕ) : ℕ :=
  ∑ x ∈ Finset.range i, ∑ y ∈ Finset.range j, padAt h w r a x y c

/-- The `blurred_out` pixel of `box_blur_u8` (lines 403-409): the
four-corner combination of the summed-area table over the window
`[i, i+k) × [j, j+k)` of the padded raster (`k = 2r+1`), reduced mod `2^32`
exactly as the wrapping `uint32` arithmetic does (the combination always
equals the window sum, far below `2^32`), then divided by `k²`. -/
def blurWindowMean (h w : ℕ) (a : ℕ → ℕ → ℕ → ℕ) (r : ℕ) (i j c : ℕ) : ℕ :=
  ((((integ h w r a (i + (2 * r + 1)) (j + (2 * r + 1)) c : ℤ)
      + (integ h w r a i j c : ℤ)
      - (integ h w r a i (j + (2 * r + 1)) c : ℤ)
      - (integ h w r a (i + (2 * r + 1)) j c : ℤ))
    % (2 ^ 32 : ℤ)).toNat) / ((2 * r + 1) * (2 * r + 1))

/-- `box_blur_u8` (lines 397-421 of `wxReaderView.py`) on pixel `(i, j)`,
channel `c`, of an `h × w` uint8 raster: early return for `r ≤ 0` or
non-positive intensity, `intensity = min(intensity, 1)`, pure blur when the
clamped intensity is 1, otherwise the integer blend with
`k = int(intensity*100)`; `% 256` is the `.astype(np.uint8)` truncation. -/
def boxBlurU8 (h w : ℕ) (a : ℕ → ℕ → ℕ → ℕ) (r : ℕ) (intensity : ℚ)
    (i j c : ℕ) : ℕ :=
  if r = 0 ∨ intensity ≤ 0 then a i j c
  else if min intensity 1 = 1 then blurWindowMean h w a r i j c % 256
  else
    ((a i j c * (100 - (Int.floor (min intensity 1 * 100)).toNat)
      + blurWindowMean h w a r i j c * (Int.floor (min intensity 1 * 100)).toNat)
     / 100) % 256

/-- The metadata `GLFilterTool.apply` inspects on its numpy input: element
dtype and shape. -/
structure RasterMeta where
  dtypeU8 : Bool
  shape : List ℕ
deriving DecidableEq, Repr

/-- The validation on line 168: the raster must be a 3-d uint8 array whose
third axis has extent 3. -/
def validRGB (r : RasterMeta) : Prop :=
  r.dtypeU8 = true ∧ r.shape.length = 3 ∧ r.shape.getD 2 0 = 3

instance (r : RasterMeta) : Decidable (validRGB r) := by
  unfold validRGB; infer_instance

/-- Outcome of `GLFilterTool.apply`: unknown-name passthrough of the input,
the `ValueError` input-validation failure, or the GL pipeline's result
(which may itself fail with a shader/framebuffer `RuntimeError`, a distinct
error kind). -/
inductive ApplyOutcome
  | passthrough (r : RasterMeta)
  | inputError
  | glResult (res : Except String RasterMeta)
deriving Repr

/-- `GLFilterTool.apply` (lines 164-230): the unknown-filter check precedes
the raster validation; on a known name with a valid raster the GL
upload/draw/readback runs (abstracted as `pipeline`, since it executes on
the GPU). -/
def glToolApply (filters : List String)
    (pipeline : String → RasterMeta → Except String RasterMeta)
    (name : String) (r : RasterMeta) : ApplyOutcome :=
  if name ∈ filters then
    if validRGB r then ApplyOutcome.glResult (pipeline name r)
    else ApplyOutcome.inputError
  else ApplyOutcome.passthrough r

/-! ## Spread resolver: supporting lemmas -/

lemma clampPage_nonneg (n page : ℤ) : 0 ≤ max 0 (min page (n - 1)) :=
  le_max_left 0 _

lemma clampPage_le (n page : ℤ) (hn : 1 ≤ n) : max 0 (min page (n - 1)) ≤ n - 1 := by
  rcases le_or_lt page (n - 1) with h | h
  · rw [min_eq_left h]; omega
  · rw [min_eq_right h.le]; omega

lemma spread_mem_range (n page : ℤ) (dir : ReadDir) (pad : Bool) (hn : 1 ≤ n) :
    ∀ x ∈ spreadCore n page DispMode.two dir pad, x = -1 ∨ (0 ≤ x ∧ x < n) := by
  have hq0 := clampPage_nonneg n page
  have hqn := clampPage_le n page hn
  intro x hx
  unfold spreadCore at hx
  simp only [reduceCtorEq, if_false, reduceIte] at hx
  cases dir <;> cases pad <;>
    (simp only [reduceCtorEq, if_false, if_true, reduceIte, Bool.false_eq_true,
       and_false, and_true] at hx
     split_ifs at hx <;> simp only [List.mem_append, List.mem_singleton,
       List.not_mem_nil, or_false, false_or] at hx <;> omega)

lemma spread_pairwise_ltr (n page : ℤ) (pad : Bool) (hn : 1 ≤ n) :
    List.Pairwise (fun a b => a ≠ -1 → b ≠ -1 → a < b)
      (spreadCore n page DispMode.two ReadDir.ltr pad) := by
  have hq0 := clampPage_nonneg n page
  have hqn := clampPage_le n page hn
  unfold spreadCore
  simp only [reduceCtorEq, if_false, reduceIte]
  cases pad <;>
    (simp only [Bool.false_eq_true, and_false, and_true, if_false, reduceIte]
     split_ifs <;>
       simp only [List.singleton_append, List.cons_append, List.nil_append,
         List.pairwise_cons, List.Pairwise.nil, List.mem_singleton, List.mem_cons,
         List.not_mem_nil, or_false, false_or, forall_eq, false_imp_iff, and_true,
         true_and] <;>
       (try constructor) <;> (intros; first | trivial | omega))

lemma spread_pairwise_rtl (n page : ℤ) (pad : Bool) (hn : 1 ≤ n) :
    List.Pairwise (fun a b => a ≠ -1 → b ≠ -1 → a > b)
      (spreadCore n page DispMode.two ReadDir.rtl pad) := by
  have hq0 := clampPage_nonneg n page
  have hqn := clampPage_le n page hn
  unfold spreadCore
  simp only [reduceCtorEq, if_false, reduceIte]
  cases pad <;>
    (simp only [Bool.false_eq_true, and_false, and_true, if_false, reduceIte]
     split_ifs <;>
       simp only [List.singleton_append, List.cons_append, List.nil_append,
         List.pairwise_cons, List.Pairwise.nil, List.mem_singleton, List.mem_cons,
         List.not_mem_nil, or_false, false_or, forall_eq, false_imp_iff, and_true,
         true_and] <;>
       (try constructor) <;> (intros; first | trivial | omega))

lemma spread_blank_only_first (n page : ℤ) (dir : ReadDir) (pad : Bool) (hn : 1 ≤ n)
    (hmem : (-1 : ℤ) ∈ spreadCore n page DispMode.two dir pad) :
    pad = true ∧ max 0 (min page (n - 1)) = 0 ∧
    (dir = ReadDir.ltr → spreadCore n page DispMode.two dir pad = [-1, 0]) ∧
    (dir = ReadDir.rtl → spreadCore n page DispMode.two dir pad = [0, -1]) := by
  have hq0 := clampPage_nonneg n page
  have hqn := clampPage_le n page hn
  have h0n : (0 : ℤ) < n := by omega
  have hfact : pad = true ∧ max 0 (min page (n - 1)) = 0 := by
    unfold spreadCore at hmem
    simp only [reduceCtorEq, if_false, reduceIte] at hmem
    cases pad
    · exfalso
      cases dir <;>
        (simp only [reduceCtorEq, if_false, if_true, reduceIte, Bool.false_eq_true,
           and_false] at hmem
         split_ifs at hmem <;>
           simp only [List.mem_append, List.mem_singleton, List.not_mem_nil,
             or_false, false_or] at hmem <;> omega)
    · refine ⟨rfl, ?_⟩
      cases dir <;>
        (simp only [reduceCtorEq, if_false, if_true, reduceIte, and_true] at hmem
         split_ifs at hmem <;>
           simp only [List.mem_append, List.mem_singleton, List.not_mem_nil,
             or_false, false_or] at hmem <;> omega)
  obtain ⟨hpad, hq⟩ := hfact
  subst hpad
  refine ⟨rfl, hq, ?_, ?_⟩ <;>
    (intro hdir; subst hdir
     unfold spreadCore
     rw [hq]
     norm_num [h0n]
     decide)

/-! ## C1 -/

/-- C1: in TwoUp mode, `_spread_pages` computes exactly the spread formula of
the specification (`shift = padStart ? 1 : 0`, `v = page + shift`, `base = v
- (v mod 2)`, `left = base - shift`, `right = base + 1 - shift`, in-range
slots in reading order, left-then-right for LTR and right-then-left for
RTL), and in particular `pageCount=10, page=0, LTR, padStart=true` gives
`[Blank, 0]`, with `padStart=false` gives `[0, 1]`, and `page=5, RTL,
padStart=false` gives `[5, 4]`. -/
theorem c1_spread_formula_and_examples :
    (∀ (n page : ℤ) (dir : ReadDir) (pad : Bool), 1 ≤ n →
      spreadCore n page DispMode.two dir pad = spreadSpecFormula n page dir pad) ∧
    spreadCore 10 0 DispMode.two ReadDir.ltr true = [-1, 0] ∧
    spreadCore 10 0 DispMode.two ReadDir.ltr false = [0, 1] ∧
    spreadCore 10 5 DispMode.two ReadDir.rtl false = [5, 4] := by
  refine ⟨?_, by decide, by decide, by decide⟩
  intro n page dir pad _
  unfold spreadCore spreadSpecFormula
  rcases Int.emod_two_eq (max 0 (min page (n - 1)) + if pad then (1 : ℤ) else 0) with h | h <;>
    simp [h]

/-- Witness for C1 at `pageCount=7, page=4, LTR, padStart=true`. -/
theorem c1_spread_formula_witness :
    spreadCore 7 4 DispMode.two ReadDir.ltr true = spreadSpecFormula 7 4 ReadDir.ltr true :=
  c1_spread_formula_and_examples.1 7 4 ReadDir.ltr true (by norm_num)

/-! ## C3 -/

/-- C3 as stated is false: for `pageCount=10, page=0, RTL, padStart=true`
the spread is `[0, Blank]` — the Blank slot is the trailing slot of the
returned reading-order list, not the leading one, so Blank does not appear
"only as the leading slot" for the RTL direction. -/
theorem c3_blank_not_leading_counterexample :
    spreadCore 10 0 DispMode.two ReadDir.rtl true = [0, -1] ∧
    (spreadCore 10 0 DispMode.two ReadDir.rtl true).head? ≠ some (-1) ∧
    (-1 : ℤ) ∈ spreadCore 10 0 DispMode.two ReadDir.rtl true := by decide

/-- C3 amended: for every valid TwoUp input, every slot is either Blank or a
page index in `[0, pageCount)`; the concrete indices are strictly increasing
in document order (list-increasing for LTR, list-decreasing for RTL); and
Blank appears only in the very first spread (clamped page 0) when `padStart`
is true, on the document-leading edge: as the first slot in LTR and the last
slot in RTL. -/
theorem c3_spread_slots_amended (n page : ℤ) (dir : ReadDir) (pad : Bool) (hn : 1 ≤ n) :
    (∀ x ∈ spreadCore n page DispMode.two dir pad, x = -1 ∨ (0 ≤ x ∧ x < n)) ∧
    (dir = ReadDir.ltr →
      List.Pairwise (fun a b => a ≠ -1 → b ≠ -1 → a < b)
        (spreadCore n page DispMode.two dir pad)) ∧
    (dir = ReadDir.rtl →
      List.Pairwise (fun a b => a ≠ -1 → b ≠ -1 → a > b)
        (spreadCore n page DispMode.two dir pad)) ∧
    ((-1 : ℤ) ∈ spreadCore n page DispMode.two dir pad →
      pad = true ∧ max 0 (min page (n - 1)) = 0 ∧
      (dir = ReadDir.ltr → spreadCore n page DispMode.two dir pad = [-1, 0]) ∧
      (dir = ReadDir.rtl → spreadCore n page DispMode.two dir pad = [0, -1])) := by
  refine ⟨spread_mem_range n page dir pad hn, ?_, ?_,
    spread_blank_only_first n page dir pad hn⟩
  · intro h; subst h; exact spread_pairwise_ltr n page pad hn
  · intro h; subst h; exact spread_pairwise_rtl n page pad hn

/-- Witness for C3 (amended) at `pageCount=10, page=0, LTR, padStart=true`:
the spread there is `[Blank, 0]`. -/
theorem c3_spread_slots_witness :
    spreadCore 10 0 DispMode.two ReadDir.ltr true = [-1, 0] :=
  ((c3_spread_slots_amended 10 0 ReadDir.ltr true (by norm_num)).2.2.2
    (by decide)).2.2.1 rfl

/-! ## Field-preservation lemmas for the cache operations -/

@[simp] lemma ensure_pdf (s : ViewSt) : (ensureCacheZoom s).pdf = s.pdf := by
  unfold ensureCacheZoom; split <;> rfl

@[simp] lemma ensure_page (s : ViewSt) : (ensureCacheZoom s).page = s.page := by
  unfold ensureCacheZoom; split <;> rfl

@[simp] lemma ensure_zoom (s : ViewSt) : (ensureCacheZoom s).zoom = s.zoom := by
  unfold ensureCacheZoom; split <;> rfl

@[simp] lemma ensure_zoomMode (s : ViewSt) : (ensureCacheZoom s).zoomMode = s.zoomMode := by
  unfold ensureCacheZoom; split <;> rfl

@[simp] lemma ensure_mode (s : ViewSt) : (ensureCacheZoom s).mode = s.mode := by
  unfold ensureCacheZoom; split <;> rfl

@[simp] lemma ensure_direction (s : ViewSt) : (ensureCacheZoom s).direction = s.direction := by
  unfold ensureCacheZoom; split <;> rfl

@[simp] lemma ensure_padStart (s : ViewSt) : (ensureCacheZoom s).padStart = s.padStart := by
  unfold ensureCacheZoom; split <;> rfl

@[simp] lemma ensure_enhanceMode (s : ViewSt) :
    (ensureCacheZoom s).enhanceMode = s.enhanceMode := by
  unfold ensureCacheZoom; split <;> rfl

@[simp] lemma ensure_colorMode (s : ViewSt) :
    (ensureCacheZoom s).colorMode = s.colorMode := by
  unfold ensureCacheZoom; split <;> rfl

@[simp] lemma prune_pdf (s : ViewSt) : (pruneCache s).pdf = s.pdf := by
  unfold pruneCache; split <;> rfl

@[simp] lemma prune_page (s : ViewSt) : (pruneCache s).page = s.page := by
  unfold pruneCache; split <;> rfl

@[simp] lemma prune_zoom (s : ViewSt) : (pruneCache s).zoom = s.zoom := by
  unfold pruneCache; split <;> rfl

@[simp] lemma prune_zoomMode (s : ViewSt) : (pruneCache s).zoomMode = s.zoomMode := by
  unfold pruneCache; split <;> rfl

@[simp] lemma prune_mode (s : ViewSt) : (pruneCache s).mode = s.mode := by
  unfold pruneCache; split <;> rfl

@[simp] lemma prune_direction (s : ViewSt) : (pruneCache s).direction = s.direction := by
  unfold pruneCache; split <;> rfl

@[simp] lemma prune_padStart (s : ViewSt) : (pruneCache s).padStart = s.padStart := by
  unfold pruneCache; split <;> rfl

@[simp] lemma prune_enhanceMode (s : ViewSt) :
    (pruneCache s).enhanceMode = s.enhanceMode := by
  unfold pruneCache; split <;> rfl

@[simp] lemma prune_colorMode (s : ViewSt) : (pruneCache s).colorMode = s.colorMode := by
  unfold pruneCache; split <;> rfl

@[simp] lemma prune_lastCacheZoom (s : ViewSt) :
    (pruneCache s).lastCacheZoom = s.lastCacheZoom := by
  unfold pruneCache; split <;> rfl

/-! ## C5 -/

/-- A concrete engine state with non-default mode selections, reachable by
the setters before a document swap. -/
def sC5 : ViewSt :=
  { pdf := Option.some 5, page := 3, zoom := 2, zoomMode := ZoomMode.manual,
    mode := DispMode.single, direction := ReadDir.rtl, padStart := true,
    enhanceMode := EnhMode.sharpen, colorMode := ColMode.invert,
    lastCacheZoom := 2, cache := [] }

/-- C5 as stated is false: `set_document` does not reset the display mode,
reading direction, pad-start flag, enhancement selection or color selection
— from a state with non-default selections they all survive the document
swap (defaults are TwoUp, LTR, `padStart=false`, no enhancement, no color
filter, per `PDFView.__init__`). -/
theorem c5_set_document_counterexample :
    (setDocument sC5 (Option.some 7)).enhanceMode = EnhMode.sharpen ∧
    (setDocument sC5 (Option.some 7)).colorMode = ColMode.invert ∧
    (setDocument sC5 (Option.some 7)).direction = ReadDir.rtl ∧
    (setDocument sC5 (Option.some 7)).padStart = true ∧
    (setDocument sC5 (Option.some 7)).mode = DispMode.single ∧
    EnhMode.sharpen ≠ EnhMode.enhNone ∧ ColMode.invert ≠ ColMode.colNone ∧
    ReadDir.rtl ≠ ReadDir.ltr ∧ DispMode.single ≠ DispMode.two := by
  refine ⟨rfl, rfl, rfl, rfl, rfl, by decide, by decide, by decide, by decide⟩

/-- C5 amended: `set_document` resets the current page to 0, the zoom to
1.0, the zoom mode to FitPage, the cache-zoom stamp to 1.0, and empties the
cache, for every prior state; the display mode, reading direction,
pad-start flag, enhancement selection and color selection are left
unchanged. -/
theorem c5_set_document_amended (s : ViewSt) (d : Option ℤ) :
    (setDocument s d).pdf = d ∧
    (setDocument s d).page = 0 ∧
    (setDocument s d).zoom = 1 ∧
    (setDocument s d).zoomMode = ZoomMode.fitPage ∧
    (setDocument s d).lastCacheZoom = 1 ∧
    (setDocument s d).cache = [] ∧
    (setDocument s d).mode = s.mode ∧
    (setDocument s d).direction = s.direction ∧
    (setDocument s d).padStart = s.padStart ∧
    (setDocument s d).enhanceMode = s.enhanceMode ∧
    (setDocument s d).colorMode = s.colorMode :=
  ⟨rfl, rfl, rfl, rfl, rfl, rfl, rfl, rfl, rfl, rfl, rfl⟩

/-! ## C4 -/

/-- A state whose cache holds (only) the blank-slot entry while the current
page is 10. -/
def sC4 : ViewSt :=
  { pdf := Option.some 20, page := 10, zoom := 1, zoomMode := ZoomMode.fitPage,
    mode := DispMode.two, direction := ReadDir.ltr, padStart := true,
    enhanceMode := EnhMode.enhNone, colorMode := ColMode.colNone,
    lastCacheZoom := 1,
    cache := [(-1, { zoom := 1, enh := EnhMode.enhNone, col := ColMode.colNone })] }

/-- C4 as stated is false: the prune pass computes the Blank entry's
distance from its dict key `-1`, i.e. `|−1 − currentPage| = currentPage+1`,
not zero — at current page 10 the distance is 11 > 10, so the Blank entry
is removed. -/
theorem c4_blank_pruned_counterexample :
    cacheLookup sC4.cache (-1) =
      Option.some { zoom := 1, enh := EnhMode.enhNone, col := ColMode.colNone } ∧
    (pruneCache sC4).cache = [] := by
  refine ⟨rfl, ?_⟩
  decide

/-- C4 amended: the prune pass removes exactly the entries (Blank included,
under its key `-1`) whose key is at distance more than 10 from the current
page, so the Blank entry survives exactly when the current page is at most
9; and pruning runs inside `_get_bitmap` only when the cache holds more
than 36 entries before an insertion — on a miss with at most 36 entries the
new entry is simply prepended with nothing removed. -/
theorem c4_prune_amended (s : ViewSt) (t : BmpTag) (k : ℤ)
    (hpdf : s.pdf ≠ Option.none) (hpage : 0 ≤ s.page) :
    ((pruneCache s).cache = s.cache.filter (fun e => |e.1 - s.page| ≤ 10)) ∧
    ((-1, t) ∈ s.cache → (((-1, t) ∈ (pruneCache s).cache) ↔ s.page ≤ 9)) ∧
    (cacheLookup (ensureCacheZoom s).cache k = Option.none →
      (ensureCacheZoom s).cache.length ≤ 36 →
      (getBitmap s k).1.cache = (k, mkTag (ensureCacheZoom s)) :: (ensureCacheZoom s).cache) := by
  obtain ⟨n, hn⟩ : ∃ n, s.pdf = Option.some n := by
    cases h : s.pdf
    · exact absurd h hpdf
    · exact ⟨_, rfl⟩
  have hfilter : (pruneCache s).cache = s.cache.filter (fun e => |e.1 - s.page| ≤ 10) := by
    unfold pruneCache
    rw [hn]
  refine ⟨hfilter, ?_, ?_⟩
  · intro hmem
    rw [hfilter]
    rw [List.mem_filter]
    constructor
    · rintro ⟨-, habs⟩
      have : |(-1 : ℤ) - s.page| ≤ 10 := of_decide_eq_true habs
      rw [abs_le] at this
      omega
    · intro h9
      refine ⟨hmem, decide_eq_true ?_⟩
      rw [abs_le]
      omega
  · intro hmiss hlen
    unfold getBitmap
    rw [hmiss, if_neg (by omega)]
    rfl

/-- A state with a blank entry at current page 3, for the C4 witness. -/
def sC4w : ViewSt :=
  { pdf := Option.some 20, page := 3, zoom := 1, zoomMode := ZoomMode.fitPage,
    mode := DispMode.two, direction := ReadDir.ltr, padStart := true,
    enhanceMode := EnhMode.enhNone, colorMode := ColMode.colNone,
    lastCacheZoom := 1,
    cache := [(-1, { zoom := 1, enh := EnhMode.enhNone, col := ColMode.colNone })] }

/-- Witness for C4 (amended) at current page 3: pruning keeps exactly the
in-window entries, and the blank entry survives since 3 ≤ 9. -/
theorem c4_prune_amended_witness :
    (pruneCache sC4w).cache = sC4w.cache.filter (fun e => |e.1 - sC4w.page| ≤ 10) ∧
    ((-1, { zoom := 1, enh := EnhMode.enhNone, col := ColMode.colNone }) ∈
      (pruneCache sC4w).cache) := by
  have h := c4_prune_amended sC4w
    { zoom := 1, enh := EnhMode.enhNone, col := ColMode.colNone } 0
    (by decide) (by decide)
  exact ⟨h.1, (h.2.1 (by decide)).mpr (by decide)⟩

/-! ## C2 -/

/-- When the ensured cache is empty, `_get_bitmap` misses and inserts a
bitmap freshly produced in the ensured state. -/
lemma getBitmap_of_cache_nil (s : ViewSt) (hnil : (ensureCacheZoom s).cache = []) (k : ℤ) :
    getBitmap s k = insertBitmap (ensureCacheZoom s) k := by
  have hmiss : cacheLookup (ensureCacheZoom s).cache k = Option.none := by
    rw [hnil]; rfl
  unfold getBitmap
  rw [hmiss, hnil, if_neg (by norm_num)]

/-- C2: in a state whose cache-zoom stamp agrees with the stored zoom (as
re-established by every zoom-changing code path), changing the stored zoom
by more than `1e-9` makes the next `_get_bitmap` clear the whole cache
before serving, and the bitmap it serves is rendered at the new zoom, not
the old one; likewise, after `set_enhance_mode` or `set_color_mode` changes
the selection the cache is empty and the served bitmap is processed under
the new mode. -/
theorem c2_cache_freshness (s : ViewSt) (z : ℚ) (m : EnhMode) (c : ColMode) (k k2 k3 : ℤ)
    (hsync : s.lastCacheZoom = s.zoom) :
    (|z - s.zoom| > eps →
      (ensureCacheZoom (setZoomValue s z)).cache = [] ∧
      (getBitmap (setZoomValue s z) k).2.zoom = z ∧
      (getBitmap (setZoomValue s z) k).2.zoom ≠ s.zoom) ∧
    (m ≠ s.enhanceMode →
      (setEnhanceMode s m).cache = [] ∧
      (getBitmap (setEnhanceMode s m) k2).2.enh = m) ∧
    (c ≠ s.colorMode →
      (setColorMode s c).cache = [] ∧
      (getBitmap (setColorMode s c) k3).2.col = c) := by
  refine ⟨?_, ?_, ?_⟩
  · intro hz
    have hcond : |(setZoomValue s z).zoom - (setZoomValue s z).lastCacheZoom| > eps := by
      show |z - s.lastCacheZoom| > eps
      rw [hsync]; exact hz
    have hnil : (ensureCacheZoom (setZoomValue s z)).cache = [] := by
      unfold ensureCacheZoom
      rw [if_pos hcond]
    have hzoom : (getBitmap (setZoomValue s z) k).2.zoom = z := by
      rw [getBitmap_of_cache_nil _ hnil]
      show (ensureCacheZoom (setZoomValue s z)).zoom = z
      rw [ensure_zoom]
      rfl
    refine ⟨hnil, hzoom, ?_⟩
    rw [hzoom]
    intro heq
    rw [heq, sub_self, abs_zero] at hz
    exact absurd hz (by norm_num [eps])
  · intro hm
    have hset : setEnhanceMode s m = { s with enhanceMode := m, cache := [] } := by
      unfold setEnhanceMode
      rw [if_pos (Ne.symm hm)]
    have hnil : (ensureCacheZoom (setEnhanceMode s m)).cache = [] := by
      rw [hset]; unfold ensureCacheZoom; split <;> rfl
    refine ⟨by rw [hset], ?_⟩
    rw [getBitmap_of_cache_nil _ hnil]
    show (ensureCacheZoom (setEnhanceMode s m)).enhanceMode = m
    rw [ensure_enhanceMode, hset]
  · intro hc
    have hset : setColorMode s c = { s with colorMode := c, cache := [] } := by
      unfold setColorMode
      rw [if_pos (Ne.symm hc)]
    have hnil : (ensureCacheZoom (setColorMode s c)).cache = [] := by
      rw [hset]; unfold ensureCacheZoom; split <;> rfl
    refine ⟨by rw [hset], ?_⟩
    rw [getBitmap_of_cache_nil _ hnil]
    show (ensureCacheZoom (setColorMode s c)).colorMode = c
    rw [ensure_colorMode, hset]

/-- A synced state with a cached bitmap, for the C2 witness. -/
def sC2 : ViewSt :=
  { pdf := Option.some 10, page := 0, zoom := 1, zoomMode := ZoomMode.manual,
    mode := DispMode.two, direction := ReadDir.ltr, padStart := false,
    enhanceMode := EnhMode.enhNone, colorMode := ColMode.colNone,
    lastCacheZoom := 1,
    cache := [(0, { zoom := 1, enh := EnhMode.enhNone, col := ColMode.colNone })] }

/-- Witness for C2: doubling the zoom from 1 to 2 clears the cache and the
next served bitmap carries zoom 2; switching the enhancement mode to
Sharpen clears the cache and the next served bitmap carries Sharpen. -/
theorem c2_cache_freshness_witness :
    (ensureCacheZoom (setZoomValue sC2 2)).cache = [] ∧
    (getBitmap (setZoomValue sC2 2) 0).2.zoom = 2 ∧
    (setEnhanceMode sC2 EnhMode.sharpen).cache = [] ∧
    (getBitmap (setEnhanceMode sC2 EnhMode.sharpen) 0).2.enh = EnhMode.sharpen := by
  have h := c2_cache_freshness sC2 2 EnhMode.sharpen ColMode.invert 0 0 0 rfl
  have h1 := h.1 (by norm_num [sC2, eps])
  have h2 := h.2.1 (by decide)
  exact ⟨h1.1, h1.2.1, h2.1, h2.2⟩

/-! ## C6 -/

lemma applyAutoZoom_of_manual (osize : ℤ → ℚ × ℚ) (cw ch : ℤ) (s : ViewSt)
    (hm : s.zoomMode = ZoomMode.manual) :
    applyAutoZoomIfNeeded osize cw ch s = s := by
  unfold applyAutoZoomIfNeeded
  rw [if_pos hm]

lemma applyAutoZoom_of_none (osize : ℤ → ℚ × ℚ) (cw ch : ℤ) (s : ViewSt)
    (hm : s.zoomMode ≠ ZoomMode.manual)
    (hc : computeAutoZoom osize cw ch s.pdf s.page s.mode s.direction s.padStart s.zoomMode
      = Option.none) :
    applyAutoZoomIfNeeded osize cw ch s = s := by
  unfold applyAutoZoomIfNeeded
  rw [if_neg hm, hc]

lemma applyAutoZoom_of_close (osize : ℤ → ℚ × ℚ) (cw ch : ℤ) (s : ViewSt) (z0 : ℚ)
    (hm : s.zoomMode ≠ ZoomMode.manual)
    (hc : computeAutoZoom osize cw ch s.pdf s.page s.mode s.direction s.padStart s.zoomMode
      = Option.some z0)
    (hz : ¬(|max (1 / 5) (min z0 6) - s.zoom| > eps)) :
    applyAutoZoomIfNeeded osize cw ch s = s := by
  unfold applyAutoZoomIfNeeded
  rw [if_neg hm, hc]
  show (if |max (1 / 5) (min z0 6) - s.zoom| > eps then
      ensureCacheZoom { s with zoom := max (1 / 5) (min z0 6) } else s) = s
  rw [if_neg hz]

lemma applyAutoZoom_of_update (osize : ℤ → ℚ × ℚ) (cw ch : ℤ) (s : ViewSt) (z0 : ℚ)
    (hm : s.zoomMode ≠ ZoomMode.manual)
    (hc : computeAutoZoom osize cw ch s.pdf s.page s.mode s.direction s.padStart s.zoomMode
      = Option.some z0)
    (hz : |max (1 / 5) (min z0 6) - s.zoom| > eps) :
    applyAutoZoomIfNeeded osize cw ch s =
      ensureCacheZoom { s with zoom := max (1 / 5) (min z0 6) } := by
  unfold applyAutoZoomIfNeeded
  rw [if_neg hm, hc]
  show (if |max (1 / 5) (min z0 6) - s.zoom| > eps then
      ensureCacheZoom { s with zoom := max (1 / 5) (min z0 6) } else s) =
    ensureCacheZoom { s with zoom := max (1 / 5) (min z0 6) }
  rw [if_pos hz]

/-- C6: one application of `_apply_auto_zoom_if_needed` leaves the stored
zoom inside `[0.2, 6.0]` (from any state whose zoom already respects the
clamp, which every zoom write maintains), and a second application with the
same spread, page sizes and viewport returns the state unchanged — zoom
identical and cache untouched. -/
theorem c6_auto_zoom_idempotent_clamped (osize : ℤ → ℚ × ℚ) (cw ch : ℤ) (s : ViewSt)
    (hlo : 1 / 5 ≤ s.zoom) (hhi : s.zoom ≤ 6) :
    (1 / 5 ≤ (applyAutoZoomIfNeeded osize cw ch s).zoom ∧
      (applyAutoZoomIfNeeded osize cw ch s).zoom ≤ 6) ∧
    applyAutoZoomIfNeeded osize cw ch (applyAutoZoomIfNeeded osize cw ch s) =
      applyAutoZoomIfNeeded osize cw ch s := by
  by_cases hm : s.zoomMode = ZoomMode.manual
  · have he := applyAutoZoom_of_manual osize cw ch s hm
    simp only [he]
    exact ⟨⟨hlo, hhi⟩, trivial⟩
  · cases hc : computeAutoZoom osize cw ch s.pdf s.page s.mode s.direction s.padStart
        s.zoomMode with
    | none =>
      have he := applyAutoZoom_of_none osize cw ch s hm hc
      simp only [he]
      exact ⟨⟨hlo, hhi⟩, trivial⟩
    | some z0 =>
      by_cases hz : |max (1 / 5) (min z0 6) - s.zoom| > eps
      · have he := applyAutoZoom_of_update osize cw ch s z0 hm hc hz
        have hz1 : (ensureCacheZoom { s with zoom := max (1 / 5) (min z0 6) }).zoom
            = max (1 / 5) (min z0 6) := by
          rw [ensure_zoom]
        have hc' : computeAutoZoom osize cw ch
            (ensureCacheZoom { s with zoom := max (1 / 5) (min z0 6) }).pdf
            (ensureCacheZoom { s with zoom := max (1 / 5) (min z0 6) }).page
            (ensureCacheZoom { s with zoom := max (1 / 5) (min z0 6) }).mode
            (ensureCacheZoom { s with zoom := max (1 / 5) (min z0 6) }).direction
            (ensureCacheZoom { s with zoom := max (1 / 5) (min z0 6) }).padStart
            (ensureCacheZoom { s with zoom := max (1 / 5) (min z0 6) }).zoomMode
            = Option.some z0 := by
          rw [ensure_pdf, ensure_page, ensure_mode, ensure_direction, ensure_padStart,
            ensure_zoomMode]
          exact hc
        have hm' : (ensureCacheZoom { s with zoom := max (1 / 5) (min z0 6) }).zoomMode
            ≠ ZoomMode.manual := by
          rw [ensure_zoomMode]
          exact hm
        have hz' : ¬(|max (1 / 5) (min z0 6)
            - (ensureCacheZoom { s with zoom := max (1 / 5) (min z0 6) }).zoom| > eps) := by
          rw [hz1, sub_self, abs_zero]
          norm_num [eps]
        have he2 := applyAutoZoom_of_close osize cw ch _ z0 hm' hc' hz'
        refine ⟨?_, ?_⟩
        · rw [he, hz1]
          exact ⟨le_max_left _ _, max_le (by norm_num) (min_le_right _ _)⟩
        · rw [he]
          exact he2
      · have he := applyAutoZoom_of_close osize cw ch s z0 hm hc hz
        simp only [he]
        exact ⟨⟨hlo, hhi⟩, trivial⟩

/-- A fixed page-size oracle for the C6 witness: every page is 500 × 800
points. -/
def cOsize : ℤ → ℚ × ℚ := fun _ => (500, 800)

/-- A FitPage state for the C6 witness. -/
def sC6 : ViewSt :=
  { pdf := Option.some 10, page := 4, zoom := 1, zoomMode := ZoomMode.fitPage,
    mode := DispMode.two, direction := ReadDir.ltr, padStart := false,
    enhanceMode := EnhMode.enhNone, colorMode := ColMode.colNone,
    lastCacheZoom := 1, cache := [] }

/-- Witness for C6 on a concrete viewport and document. -/
theorem c6_auto_zoom_witness :
    (1 / 5 ≤ (applyAutoZoomIfNeeded cOsize 1000 900 sC6).zoom ∧
      (applyAutoZoomIfNeeded cOsize 1000 900 sC6).zoom ≤ 6) ∧
    applyAutoZoomIfNeeded cOsize 1000 900 (applyAutoZoomIfNeeded cOsize 1000 900 sC6) =
      applyAutoZoomIfNeeded cOsize 1000 900 sC6 :=
  c6_auto_zoom_idempotent_clamped cOsize 1000 900 sC6 (by norm_num [sC6]) (by norm_num [sC6])

/-! ## C7 -/

/-- `_ensure_cache_zoom` either empties the cache or leaves the whole state
alone. -/
lemma ensure_cache_cases (s : ViewSt) :
    (ensureCacheZoom s).cache = [] ∨ ensureCacheZoom s = s := by
  unfold ensureCacheZoom
  split
  · left; rfl
  · right; rfl

/-- After a prune with a document open, at most the 21 keys of
`[page-10, page+10]` can remain (keys are dict keys, hence distinct). -/
lemma prune_length_le (s : ViewSt) (n : ℤ) (hn : s.pdf = Option.some n)
    (hnd : (s.cache.map Prod.fst).Nodup) :
    (pruneCache s).cache.length ≤ 21 := by
  have hfilter : (pruneCache s).cache = s.cache.filter (fun e => |e.1 - s.page| ≤ 10) := by
    unfold pruneCache
    rw [hn]
  have hsub : ((s.cache.filter (fun e => |e.1 - s.page| ≤ 10)).map Prod.fst).Sublist
      (s.cache.map Prod.fst) := (List.filter_sublist _).map _
  have hnd' : ((s.cache.filter (fun e => |e.1 - s.page| ≤ 10)).map Prod.fst).Nodup :=
    hnd.sublist hsub
  have hbound : ∀ k ∈ (s.cache.filter (fun e => |e.1 - s.page| ≤ 10)).map Prod.fst,
      k ∈ Finset.Icc (s.page - 10) (s.page + 10) := by
    intro k hk
    rcases List.mem_map.mp hk with ⟨e, he, rfl⟩
    have habs : |e.1 - s.page| ≤ 10 := of_decide_eq_true (List.mem_filter.mp he).2
    rw [abs_le] at habs
    rw [Finset.mem_Icc]
    omega
  have hcount : ((s.cache.filter (fun e => |e.1 - s.page| ≤ 10)).map Prod.fst).length
      ≤ (Finset.Icc (s.page - 10) (s.page + 10)).card := by
    rw [← List.toFinset_card_of_nodup hnd']
    apply Finset.card_le_card
    intro k hk
    exact hbound k (List.mem_toFinset.mp hk)
  have hcard : (Finset.Icc (s.page - 10) (s.page + 10)).card = 21 := by
    rw [Int.card_Icc]
    omega
  have hlenmap := List.length_map (s.cache.filter (fun e => |e.1 - s.page| ≤ 10)) Prod.fst
  rw [hfilter]
  omega

/-- C7: the cache is size-bounded — with a document open, distinct keys, and
at most 37 entries before the call, `_get_bitmap` leaves at most 37 entries;
the prune pass itself leaves at most 22 entries and keeps exactly the
entries whose key distance from the current page is at most 10. -/
theorem c7_cache_size_bound (s : ViewSt) (k : ℤ) (n : ℤ)
    (hpdf : s.pdf = Option.some n)
    (hnd : (s.cache.map Prod.fst).Nodup)
    (h37 : s.cache.length ≤ 37) :
    (getBitmap s k).1.cache.length ≤ 37 ∧
    (pruneCache s).cache.length ≤ 22 ∧
    (∀ e ∈ s.cache, (e ∈ (pruneCache s).cache ↔ |e.1 - s.page| ≤ 10)) := by
  have hfilter : (pruneCache s).cache = s.cache.filter (fun e => |e.1 - s.page| ≤ 10) := by
    unfold pruneCache
    rw [hpdf]
  refine ⟨?_, ?_, ?_⟩
  · rcases ensure_cache_cases s with h | h
    · rw [getBitmap_of_cache_nil s h k]
      show ((k, mkTag (ensureCacheZoom s)) :: (ensureCacheZoom s).cache).length ≤ 37
      rw [List.length_cons, h]
      norm_num
    · unfold getBitmap
      rw [h]
      cases hl : cacheLookup s.cache k with
      | some t =>
        exact h37
      | none =>
        by_cases h36 : s.cache.length > 36
        · rw [if_pos h36]
          show ((k, mkTag (pruneCache s)) :: (pruneCache s).cache).length ≤ 37
          rw [List.length_cons]
          have := prune_length_le s n hpdf hnd
          omega
        · rw [if_neg h36]
          show ((k, mkTag s) :: s.cache).length ≤ 37
          rw [List.length_cons]
          omega
  · have := prune_length_le s n hpdf hnd
    omega
  · intro e he
    rw [hfilter, List.mem_filter]
    constructor
    · rintro ⟨-, h⟩
      exact of_decide_eq_true h
    · intro h
      exact ⟨he, decide_eq_true h⟩

/-- An over-capacity concrete state (38 entries, keys 0..36 and the blank
key) at current page 18, for the C7 witness. -/
def sC7 : ViewSt :=
  { pdf := Option.some 60, page := 18, zoom := 1, zoomMode := ZoomMode.fitPage,
    mode := DispMode.two, direction := ReadDir.ltr, padStart := false,
    enhanceMode := EnhMode.enhNone, colorMode := ColMode.colNone,
    lastCacheZoom := 1,
    cache := (List.range 36).map
      (fun i => ((i : ℤ), { zoom := 1, enh := EnhMode.enhNone, col := ColMode.colNone }))
      ++ [(-1, { zoom := 1, enh := EnhMode.enhNone, col := ColMode.colNone })] }

/-- Witness for C7 on the over-capacity state: a miss triggers the prune and
the cache stays within its bound. -/
theorem c7_cache_size_bound_witness :
    (getBitmap sC7 40).1.cache.length ≤ 37 ∧ (pruneCache sC7).cache.length ≤ 22 :=
  ⟨(c7_cache_size_bound sC7 40 60 (by decide) (by decide) (by decide)).1,
   (c7_cache_size_bound sC7 40 60 (by decide) (by decide) (by decide)).2.1⟩

/-! ## C8 -/

lemma ensure_cache_subset (s : ViewSt) : ∀ e ∈ (ensureCacheZoom s).cache, e ∈ s.cache := by
  rcases ensure_cache_cases s with h | h <;> rw [h]
  · intro e he
    exact absurd he (List.not_mem_nil e)
  · intro e he
    exact he

lemma prune_cache_subset (s : ViewSt) : ∀ e ∈ (pruneCache s).cache, e ∈ s.cache := by
  unfold pruneCache
  split
  · intro e he; exact he
  · intro e he
    exact (List.mem_filter.mp he).1

/-- `_get_bitmap` can clear, prune or keep existing entries, and the only
entry it can add carries the requested key. -/
lemma getBitmap_cache_sub (s : ViewSt) (k : ℤ) :
    ∀ e ∈ (getBitmap s k).1.cache, e ∈ s.cache ∨ e.1 = k := by
  intro e he
  unfold getBitmap at he
  split at he
  · exact Or.inl (ensure_cache_subset s e he)
  · rw [show (insertBitmap (if (ensureCacheZoom s).cache.length > 36
        then pruneCache (ensureCacheZoom s) else ensureCacheZoom s) k).1.cache
      = (k, mkTag (if (ensureCacheZoom s).cache.length > 36
          then pruneCache (ensureCacheZoom s) else ensureCacheZoom s)) ::
        (if (ensureCacheZoom s).cache.length > 36
          then pruneCache (ensureCacheZoom s) else ensureCacheZoom s).cache from rfl,
      List.mem_cons] at he
    rcases he with rfl | he
    · exact Or.inr rfl
    · split at he
      · exact Or.inl (ensure_cache_subset s e (prune_cache_subset _ e he))
      · exact Or.inl (ensure_cache_subset s e he)

lemma prefetchStep_cache_sub (s : ViewSt) (i : ℤ) :
    ∀ e ∈ (prefetchStep s i).cache, e ∈ s.cache ∨ e.1 = i := by
  intro e he
  unfold prefetchStep at he
  split at he
  · exact Or.inl (ensure_cache_subset s e he)
  · rcases getBitmap_cache_sub (ensureCacheZoom s) i e he with h | h
    · exact Or.inl (ensure_cache_subset s e h)
    · exact Or.inr h

lemma getBitmap_fields (s : ViewSt) (k : ℤ) :
    (getBitmap s k).1.pdf = s.pdf ∧ (getBitmap s k).1.page = s.page ∧
    (getBitmap s k).1.zoom = s.zoom ∧ (getBitmap s k).1.zoomMode = s.zoomMode ∧
    (getBitmap s k).1.mode = s.mode ∧ (getBitmap s k).1.direction = s.direction ∧
    (getBitmap s k).1.padStart = s.padStart ∧
    (getBitmap s k).1.enhanceMode = s.enhanceMode ∧
    (getBitmap s k).1.colorMode = s.colorMode := by
  unfold getBitmap
  split
  · exact ⟨ensure_pdf s, ensure_page s, ensure_zoom s, ensure_zoomMode s, ensure_mode s,
      ensure_direction s, ensure_padStart s, ensure_enhanceMode s, ensure_colorMode s⟩
  · split
    · refine ⟨?_, ?_, ?_, ?_, ?_, ?_, ?_, ?_, ?_⟩
      · show (pruneCache (ensureCacheZoom s)).pdf = s.pdf
        rw [prune_pdf, ensure_pdf]
      · show (pruneCache (ensureCacheZoom s)).page = s.page
        rw [prune_page, ensure_page]
      · show (pruneCache (ensureCacheZoom s)).zoom = s.zoom
        rw [prune_zoom, ensure_zoom]
      · show (pruneCache (ensureCacheZoom s)).zoomMode = s.zoomMode
        rw [prune_zoomMode, ensure_zoomMode]
      · show (pruneCache (ensureCacheZoom s)).mode = s.mode
        rw [prune_mode, ensure_mode]
      · show (pruneCache (ensureCacheZoom s)).direction = s.direction
        rw [prune_direction, ensure_direction]
      · show (pruneCache (ensureCacheZoom s)).padStart = s.padStart
        rw [prune_padStart, ensure_padStart]
      · show (pruneCache (ensureCacheZoom s)).enhanceMode = s.enhanceMode
        rw [prune_enhanceMode, ensure_enhanceMode]
      · show (pruneCache (ensureCacheZoom s)).colorMode = s.colorMode
        rw [prune_colorMode, ensure_colorMode]
    · exact ⟨ensure_pdf s, ensure_page s, ensure_zoom s, ensure_zoomMode s, ensure_mode s,
        ensure_direction s, ensure_padStart s, ensure_enhanceMode s, ensure_colorMode s⟩

lemma prefetchStep_fields (s : ViewSt) (i : ℤ) :
    (prefetchStep s i).pdf = s.pdf ∧ (prefetchStep s i).page = s.page ∧
    (prefetchStep s i).zoom = s.zoom ∧ (prefetchStep s i).zoomMode = s.zoomMode ∧
    (prefetchStep s i).mode = s.mode ∧ (prefetchStep s i).direction = s.direction ∧
    (prefetchStep s i).padStart = s.padStart ∧
    (prefetchStep s i).enhanceMode = s.enhanceMode ∧
    (prefetchStep s i).colorMode = s.colorMode := by
  unfold prefetchStep
  split
  · exact ⟨ensure_pdf s, ensure_page s, ensure_zoom s, ensure_zoomMode s, ensure_mode s,
      ensure_direction s, ensure_padStart s, ensure_enhanceMode s, ensure_colorMode s⟩
  · have h := getBitmap_fields (ensureCacheZoom s) i
    exact ⟨h.1.trans (ensure_pdf s), h.2.1.trans (ensure_page s),
      h.2.2.1.trans (ensure_zoom s), h.2.2.2.1.trans (ensure_zoomMode s),
      h.2.2.2.2.1.trans (ensure_mode s), h.2.2.2.2.2.1.trans (ensure_direction s),
      h.2.2.2.2.2.2.1.trans (ensure_padStart s),
      h.2.2.2.2.2.2.2.1.trans (ensure_enhanceMode s),
      h.2.2.2.2.2.2.2.2.trans (ensure_colorMode s)⟩

lemma foldl_prefetch_fields (l : List ℤ) (s : ViewSt) :
    (l.foldl prefetchStep s).pdf = s.pdf ∧ (l.foldl prefetchStep s).page = s.page ∧
    (l.foldl prefetchStep s).zoom = s.zoom ∧
    (l.foldl prefetchStep s).zoomMode = s.zoomMode ∧
    (l.foldl prefetchStep s).mode = s.mode ∧
    (l.foldl prefetchStep s).direction = s.direction ∧
    (l.foldl prefetchStep s).padStart = s.padStart ∧
    (l.foldl prefetchStep s).enhanceMode = s.enhanceMode ∧
    (l.foldl prefetchStep s).colorMode = s.colorMode := by
  induction l generalizing s with
  | nil => exact ⟨rfl, rfl, rfl, rfl, rfl, rfl, rfl, rfl, rfl⟩
  | cons i t ih =>
    have hstep := prefetchStep_fields s i
    have htail := ih (prefetchStep s i)
    exact ⟨htail.1.trans hstep.1, htail.2.1.trans hstep.2.1,
      htail.2.2.1.trans hstep.2.2.1, htail.2.2.2.1.trans hstep.2.2.2.1,
      htail.2.2.2.2.1.trans hstep.2.2.2.2.1,
      htail.2.2.2.2.2.1.trans hstep.2.2.2.2.2.1,
      htail.2.2.2.2.2.2.1.trans hstep.2.2.2.2.2.2.1,
      htail.2.2.2.2.2.2.2.1.trans hstep.2.2.2.2.2.2.2.1,
      htail.2.2.2.2.2.2.2.2.trans hstep.2.2.2.2.2.2.2.2⟩

lemma foldl_prefetch_cache (l : List ℤ) (s : ViewSt) :
    ∀ e ∈ (l.foldl prefetchStep s).cache, e ∈ s.cache ∨ e.1 ∈ l := by
  induction l generalizing s with
  | nil =>
    intro e he
    exact Or.inl he
  | cons i t ih =>
    intro e he
    rcases ih (prefetchStep s i) e he with h | h
    · rcases prefetchStep_cache_sub s i e h with h2 | h2
      · exact Or.inl h2
      · exact Or.inr (by rw [h2]; exact List.mem_cons_self i t)
    · exact Or.inr (List.mem_cons_of_mem i h)

lemma mem_prefetchWindow (a n i : ℤ) :
    i ∈ prefetchWindow a n ↔ (a - 2 ≤ i ∧ i < a + 4 ∧ 0 ≤ i ∧ i < n) := by
  unfold prefetchWindow
  constructor
  · intro h
    obtain ⟨hmem, hcond⟩ := List.mem_filter.mp h
    obtain ⟨h3, h4⟩ : 0 ≤ i ∧ i < n := of_decide_eq_true hcond
    obtain ⟨j, hj, hji⟩ := List.mem_map.mp hmem
    have hj6 : j < 6 := List.mem_range.mp hj
    rw [Int.ofNat_eq_natCast] at hji
    omega
  · intro h
    obtain ⟨h1, h2, h3, h4⟩ := h
    apply List.mem_filter.mpr
    constructor
    · apply List.mem_map.mpr
      refine ⟨(i - (a - 2)).toNat, List.mem_range.mpr ?_, ?_⟩
      · omega
      · rw [Int.ofNat_eq_natCast]
        omega
    · exact decide_eq_true ⟨h3, h4⟩

/-- A state with a stale cache-zoom stamp and a cached entry for page 9,
current page 0: the prefetch callback destroys the outside-window entry. -/
def sC8 : ViewSt :=
  { pdf := Option.some 10, page := 0, zoom := 2, zoomMode := ZoomMode.manual,
    mode := DispMode.two, direction := ReadDir.ltr, padStart := false,
    enhanceMode := EnhMode.enhNone, colorMode := ColMode.colNone,
    lastCacheZoom := 1,
    cache := [(9, { zoom := 1, enh := EnhMode.enhNone, col := ColMode.colNone })] }

/-- `sC8` after its stale cache is cleared by `_ensure_cache_zoom`. -/
def sC8a : ViewSt :=
  { pdf := Option.some 10, page := 0, zoom := 2, zoomMode := ZoomMode.manual,
    mode := DispMode.two, direction := ReadDir.ltr, padStart := false,
    enhanceMode := EnhMode.enhNone, colorMode := ColMode.colNone,
    lastCacheZoom := 2, cache := [] }

/-- `sC8a` after the prefetch loop fills page 0. -/
def sC8b : ViewSt :=
  { pdf := Option.some 10, page := 0, zoom := 2, zoomMode := ZoomMode.manual,
    mode := DispMode.two, direction := ReadDir.ltr, padStart := false,
    enhanceMode := EnhMode.enhNone, colorMode := ColMode.colNone,
    lastCacheZoom := 2,
    cache := [(0, { zoom := 2, enh := EnhMode.enhNone, col := ColMode.colNone })] }

/-- C8 as stated is false: firing the prefetch timer at current page 0 with
page count 10 removes the cache entry for page 9, which lies outside the
window `[-2, 4) ∩ [0, 10) = {0,1,2,3}` — the loop calls
`_ensure_cache_zoom`, which clears the whole (stale-zoom) cache, and
`_get_bitmap` can likewise prune far entries when over capacity. -/
theorem c8_prefetch_counterexample :
    ((9 : ℤ) ∉ prefetchWindow sC8.page 10) ∧
    cacheLookup sC8.cache 9 =
      Option.some { zoom := 1, enh := EnhMode.enhNone, col := ColMode.colNone } ∧
    cacheLookup (onPreRenderTimer sC8).cache 9 = Option.none := by
  have hE : ensureCacheZoom sC8 = sC8a := by
    unfold ensureCacheZoom
    rw [if_pos (show |sC8.zoom - sC8.lastCacheZoom| > eps by norm_num [sC8, eps])]
    rfl
  have hE2 : ensureCacheZoom sC8a = sC8a := by
    unfold ensureCacheZoom
    rw [if_neg (show ¬(|sC8a.zoom - sC8a.lastCacheZoom| > eps) by norm_num [sC8a, eps])]
  have hS1 : prefetchStep sC8 0 = sC8b := by
    unfold prefetchStep
    rw [hE, if_neg (by decide)]
    unfold getBitmap
    rw [hE2, show cacheLookup sC8a.cache 0 = Option.none from rfl,
      if_neg (by decide)]
    rfl
  have hT : onPreRenderTimer sC8 = [(1 : ℤ), 2, 3].foldl prefetchStep sC8b := by
    unfold onPreRenderTimer
    show (if spreadPages sC8 = [] then sC8
      else (prefetchWindow sC8.page 10).foldl prefetchStep sC8) = _
    rw [if_neg (by decide), show prefetchWindow sC8.page 10 = [0, 1, 2, 3] from by decide]
    show [(1 : ℤ), 2, 3].foldl prefetchStep (prefetchStep sC8 0) = _
    rw [hS1]
  refine ⟨by decide, rfl, ?_⟩
  have hkeys : ∀ e ∈ (onPreRenderTimer sC8).cache,
      e ∈ sC8b.cache ∨ e.1 ∈ [(1 : ℤ), 2, 3] := by
    rw [hT]
    exact foldl_prefetch_cache _ sC8b
  have hnot : ∀ e ∈ (onPreRenderTimer sC8).cache, ¬((e.1 == (9 : ℤ)) = true) := by
    intro e he hbeq
    have he9 : e.1 = 9 := eq_of_beq hbeq
    rcases hkeys e he with h | h
    · simp only [sC8b, List.mem_singleton] at h
      rw [h] at he9
      exact absurd he9 (by decide)
    · rw [he9] at h
      exact absurd h (by decide)
  show (((onPreRenderTimer sC8).cache.find? (fun e => e.1 == 9)).map (·.2)) = Option.none
  rw [List.find?_eq_none.mpr hnot]
  rfl

/-- C8 amended: the prefetch callback adds cache entries only for pages in
`[currentPage-2, currentPage+4) ∩ [0, pageCount)` (every entry of the
resulting cache is either an old entry or carries a window key), and leaves
every ViewState field other than the cache and the cache-zoom stamp —
current page, zoom, zoom mode, display mode, direction, pad-start,
enhancement and color selections, document — unchanged; pre-existing
entries outside the window are never replaced, though they may be dropped
by the stale-zoom whole-cache clear or the over-capacity prune that run
inside the loop. -/
theorem c8_prefetch_amended (s : ViewSt) (n : ℤ) (hpdf : s.pdf = Option.some n) :
    ((onPreRenderTimer s).pdf = s.pdf ∧ (onPreRenderTimer s).page = s.page ∧
     (onPreRenderTimer s).zoom = s.zoom ∧
     (onPreRenderTimer s).zoomMode = s.zoomMode ∧
     (onPreRenderTimer s).mode = s.mode ∧
     (onPreRenderTimer s).direction = s.direction ∧
     (onPreRenderTimer s).padStart = s.padStart ∧
     (onPreRenderTimer s).enhanceMode = s.enhanceMode ∧
     (onPreRenderTimer s).colorMode = s.colorMode) ∧
    (∀ e ∈ (onPreRenderTimer s).cache,
      e ∈ s.cache ∨ (s.page - 2 ≤ e.1 ∧ e.1 < s.page + 4 ∧ 0 ≤ e.1 ∧ e.1 < n)) := by
  have hunfold : onPreRenderTimer s =
      if spreadPages s = [] then s else (prefetchWindow s.page n).foldl prefetchStep s := by
    unfold onPreRenderTimer
    rw [hpdf]
  by_cases hsp : spreadPages s = []
  · rw [hunfold, if_pos hsp]
    exact ⟨⟨rfl, rfl, rfl, rfl, rfl, rfl, rfl, rfl, rfl⟩, fun e he => Or.inl he⟩
  · rw [hunfold, if_neg hsp]
    refine ⟨foldl_prefetch_fields _ s, ?_⟩
    intro e he
    rcases foldl_prefetch_cache _ s e he with h | h
    · exact Or.inl h
    · exact Or.inr ((mem_prefetchWindow s.page n e.1).mp h)

/-- An in-sync state with one cached page, for the C8 witness. -/
def sC8w : ViewSt :=
  { pdf := Option.some 12, page := 5, zoom := 1, zoomMode := ZoomMode.fitPage,
    mode := DispMode.two, direction := ReadDir.rtl, padStart := true,
    enhanceMode := EnhMode.soften, colorMode := ColMode.brown,
    lastCacheZoom := 1,
    cache := [(5, { zoom := 1, enh := EnhMode.soften, col := ColMode.brown })] }

/-- Witness for C8 (amended) on a concrete in-sync state: the prefetch
leaves page, zoom, modes and selections untouched. -/
theorem c8_prefetch_amended_witness :
    (onPreRenderTimer sC8w).page = sC8w.page ∧ (onPreRenderTimer sC8w).zoom = sC8w.zoom ∧
    (onPreRenderTimer sC8w).direction = sC8w.direction ∧
    (onPreRenderTimer sC8w).enhanceMode = sC8w.enhanceMode ∧
    (onPreRenderTimer sC8w).colorMode = sC8w.colorMode := by
  have h := c8_prefetch_amended sC8w 12 rfl
  exact ⟨h.1.2.1, h.1.2.2.1, h.1.2.2.2.2.2.1, h.1.2.2.2.2.2.2.2.1, h.1.2.2.2.2.2.2.2.2⟩

/-! ## C9 -/

/-- The summed-area table of a uniform raster: edge replication keeps every
padded sample equal to `v`, so the prefix sum over an `i × j` corner is
`i * j * v`. -/
lemma integ_const (h w r v i j c : ℕ) :
    integ h w r (fun _ _ _ => v) i j c = i * j * v := by
  unfold integ padAt
  simp [Finset.sum_const, Finset.card_range]
  ring

/-- The window mean of a uniform raster at radius 1 is the constant itself:
the combination is `9v`, no `uint32` wrap occurs, and `9v / 9 = v`. -/
lemma blurWindowMean_const (h w v i j c : ℕ) (hv : v ≤ 255) :
    blurWindowMean h w (fun _ _ _ => v) 1 i j c = v := by
  unfold blurWindowMean
  rw [integ_const, integ_const, integ_const, integ_const]
  have hv' : (v : ℤ) ≤ 255 := by exact_mod_cast hv
  have hcomb : ((((i + (2 * 1 + 1)) * (j + (2 * 1 + 1)) * v : ℕ) : ℤ)
      + ((i * j * v : ℕ) : ℤ) - ((i * (j + (2 * 1 + 1)) * v : ℕ) : ℤ)
      - (((i + (2 * 1 + 1)) * j * v : ℕ) : ℤ)) = 9 * v := by
    push_cast
    ring
  rw [hcomb]
  rw [show (9 * (v : ℤ)) % (2 ^ 32 : ℤ) = 9 * v from by omega]
  rw [show (9 * (v : ℤ)).toNat = 9 * v from by omega]
  norm_num

/-- C9: for any raster all of whose samples equal one value `v ≤ 255`, the
radius-1 box blur (summed-area table over the edge-replicated padding) at
any intensity in `(0, 1]` returns every in-range pixel unchanged — output
byte-identical to the input. -/
theorem c9_box_blur_uniform_identity (h w v : ℕ) (intensity : ℚ) (i j c : ℕ)
    (hv : v ≤ 255) (hipos : 0 < intensity) (hile : intensity ≤ 1)
    (_hi : i < h) (_hj : j < w) :
    boxBlurU8 h w (fun _ _ _ => v) 1 intensity i j c = v := by
  unfold boxBlurU8
  rw [if_neg (not_or.mpr ⟨by norm_num, not_le.mpr hipos⟩)]
  rw [min_eq_left hile]
  rw [blurWindowMean_const h w v i j c hv]
  by_cases h1 : intensity = 1
  · rw [if_pos h1]
    exact Nat.mod_eq_of_lt (by omega)
  · rw [if_neg h1]
    have hkf : (Int.floor (intensity * 100)).toNat ≤ 100 := by
      have hle : intensity * 100 ≤ 100 := by linarith
      have hfl : Int.floor (intensity * 100) ≤ 100 := by
        calc Int.floor (intensity * 100) ≤ Int.floor ((100 : ℚ)) :=
              Int.floor_le_floor hle
          _ = 100 := by norm_num
      omega
    rw [← Nat.mul_add, Nat.sub_add_cancel hkf]
    rw [Nat.mul_div_cancel v (by norm_num : 0 < 100)]
    exact Nat.mod_eq_of_lt (by omega)

/-- Witness for C9: a uniform 3×4 raster of value 7, blurred at intensity
1/2, keeps pixel (1, 2) at 7. -/
theorem c9_box_blur_uniform_witness :
    boxBlurU8 3 4 (fun _ _ _ => 7) 1 (1 / 2) 1 2 0 = 7 :=
  c9_box_blur_uniform_identity 3 4 7 (1 / 2) 1 2 0 (by norm_num) (by norm_num)
    (by norm_num) (by norm_num) (by norm_num)

/-! ## C10 -/

/-- C10: `GLFilterTool.apply` with an unknown filter name returns its input
raster unchanged whatever the raster's dtype or shape (the unknown-name
check precedes validation); with a loaded filter name it signals the input
error exactly when the raster is not an `(H, W, 3)` uint8 array. -/
theorem c10_gl_apply_passthrough_and_validation (filters : List String)
    (pipeline : String → RasterMeta → Except String RasterMeta)
    (name : String) (r : RasterMeta) :
    (name ∉ filters → glToolApply filters pipeline name r = ApplyOutcome.passthrough r) ∧
    (name ∈ filters →
      (glToolApply filters pipeline name r = ApplyOutcome.inputError ↔ ¬validRGB r)) := by
  constructor
  · intro hn
    unfold glToolApply
    rw [if_neg hn]
  · intro hn
    unfold glToolApply
    rw [if_pos hn]
    by_cases hv : validRGB r
    · rw [if_pos hv]
      constructor
      · intro habs
        exact ApplyOutcome.noConfusion habs
      · intro habs
        exact absurd hv habs
    · rw [if_neg hv]
      exact ⟨fun _ => hv, fun _ => rfl⟩

/-- Witness for C10: with loaded filter "grain", an unknown name passes any
raster through (here one that is not even 3-channel uint8), and a known
name rejects a non-uint8 raster as an input error. -/
theorem c10_gl_apply_witness :
    glToolApply ["grain"] (fun _ r => Except.ok r) "unknown"
        { dtypeU8 := false, shape := [5] }
      = ApplyOutcome.passthrough { dtypeU8 := false, shape := [5] } ∧
    glToolApply ["grain"] (fun _ r => Except.ok r) "grain"
        { dtypeU8 := false, shape := [2, 2, 3] }
      = ApplyOutcome.inputError := by
  have h1 := (c10_gl_apply_passthrough_and_validation ["grain"] (fun _ r => Except.ok r)
    "unknown" { dtypeU8 := false, shape := [5] }).1 (by decide)
  have h2 := (c10_gl_apply_passthrough_and_validation ["grain"] (fun _ r => Except.ok r)
    "grain" { dtypeU8 := false, shape := [2, 2, 3] }).2 (by decide)
  exact ⟨h1, h2.mpr (by decide)⟩

end WxReader
